import Mathlib

/-!
Shallow embedding of the accounts-payable aging dashboard (`src/app.py`) and
proofs of its specified properties.

Amounts coming from the two database views are modelled as exact rationals
(`ℚ`); Python's `int(x)` coercion is modelled as truncation toward zero, and
its behaviour on non-numeric inputs through an explicit `Value` type.
-/

namespace Corven

/-- A value as seen by Python's `int()`: a number, a string, a missing value
(`None`), or a floating NaN. -/
inductive Value where
  | num (q : ℚ)
  | str (s : String)
  | null
  | nan
deriving DecidableEq

/-- Truncation toward zero of a rational, the behaviour of Python `int()` on a
numeric argument. -/
def pyTrunc (q : ℚ) : ℤ := if q < 0 then ⌈q⌉ else ⌊q⌋

/-- Numeric value of a list of decimal digit characters. -/
def digitsToNat (cs : List Char) : ℕ :=
  cs.foldl (fun n c => n * 10 + (c.toNat - Char.toNat '0')) 0

/-- Python's `int()` applied to a string: an optional sign followed by a
nonempty run of decimal digits parses to its value, anything else raises. -/
def parseIntLit (s : String) : Option ℤ :=
  match s.data with
  | [] => none
  | '-' :: cs =>
      if cs ≠ [] ∧ cs.all (·.isDigit) then some (-(digitsToNat cs : ℤ)) else none
  | '+' :: cs =>
      if cs ≠ [] ∧ cs.all (·.isDigit) then some (digitsToNat cs : ℤ) else none
  | cs =>
      if cs.all (·.isDigit) then some (digitsToNat cs : ℤ) else none

/-- Python's `int(x)`: `some` integer on success, `none` when the conversion
raises (`None`, NaN, unparseable string). -/
def pyInt : Value → Option ℤ
  | .num q => some (pyTrunc q)
  | .str s => parseIntLit s
  | .null => none
  | .nan => none

/-- `int0` from `src/app.py` lines 235-239: `try: return int(x) except: return 0`. -/
def int0 (x : Value) : ℤ :=
  match pyInt x with
  | some n => n
  | none => 0

/-- One row of the summary view `vista_aging_ap_resumen` (`src/app.py` lines
147-163): the seven bucket amounts, the total and the scaled total. -/
structure SumRow where
  sociedad : String
  proveedor : String
  proveedor_Nombre : String
  aVencer : ℚ
  c0_15 : ℚ
  c16_60 : ℚ
  c61_90 : ℚ
  c91_120 : ℚ
  cMas120 : ℚ
  sinVto : ℚ
  total : ℚ
  total_MM : ℚ
deriving DecidableEq

/-- One row of the detail view `vista_aging_ap_detalle` (`src/app.py` lines
165-180).  The due date `VtoSAP` is modelled as a day ordinal. -/
structure DetRow where
  sociedad : String
  proveedor : String
  proveedor_Nombre : String
  nro_Documento : String
  fecha_Factura : ℤ
  vtoSAP : ℤ
  impMonLoc : ℚ
  monDoc : String
  overdue_days : ℤ
  bucket : String
deriving DecidableEq

/-! ### KPI aggregation (`src/app.py` lines 250-272)

`resumen[cols].sum()` is the exact column-wise sum of the summary rows. -/

def sumAVencer (rows : List SumRow) : ℚ := (rows.map (·.aVencer)).sum
def sum0_15 (rows : List SumRow) : ℚ := (rows.map (·.c0_15)).sum
def sum16_60 (rows : List SumRow) : ℚ := (rows.map (·.c16_60)).sum
def sum61_90 (rows : List SumRow) : ℚ := (rows.map (·.c61_90)).sum
def sum91_120 (rows : List SumRow) : ℚ := (rows.map (·.c91_120)).sum
def sumMas120 (rows : List SumRow) : ℚ := (rows.map (·.cMas120)).sum
def sumSinVto (rows : List SumRow) : ℚ := (rows.map (·.sinVto)).sum
def sumTotal (rows : List SumRow) : ℚ := (rows.map (·.total)).sum
def sumTotalMM (rows : List SumRow) : ℚ := (rows.map (·.total_MM)).sum

/-- `overdue_total` (`src/app.py` lines 254-260): `int0` of the sum of the five
overdue bucket column sums. -/
def overdue_total (rows : List SumRow) : ℤ :=
  int0 (.num (sum0_15 rows + sum16_60 rows + sum61_90 rows + sum91_120 rows + sumMas120 rows))

/-- `avencer_total` (`src/app.py` line 261). -/
def avencer_total (rows : List SumRow) : ℤ := int0 (.num (sumAVencer rows))

/-- `sinvto_total` (`src/app.py` line 262). -/
def sinvto_total (rows : List SumRow) : ℤ := int0 (.num (sumSinVto rows))

/-- `total` (`src/app.py` line 263). -/
def total_kpi (rows : List SumRow) : ℤ := int0 (.num (sumTotal rows))

/-- `total_mm` (`src/app.py` line 264). -/
def total_mm (rows : List SumRow) : ℤ := int0 (.num (sumTotalMM rows))

/-- `porc_overdue` (`src/app.py` line 266):
`(overdue_total / total * 100) if total else 0`. -/
def porc_overdue (rows : List SumRow) : ℚ :=
  if total_kpi rows ≠ 0 then (overdue_total rows : ℚ) / (total_kpi rows : ℚ) * 100 else 0

/-- `doc_count` (`src/app.py` line 267):
`len(detalle) if not detalle.empty else int(resumen.shape[0])`. -/
def doc_count (detalle : List DetRow) (resumen : List SumRow) : ℕ :=
  if detalle ≠ [] then detalle.length else resumen.length

/-- The per-bucket KPI values (`src/app.py` lines 268-271 and 313-314):
`int0` of each bucket column sum. -/
def bucket_kpi (rows : List SumRow) (k : String) : ℤ :=
  if k = "A Vencer" then int0 (.num (sumAVencer rows))
  else if k = "0-15" then int0 (.num (sum0_15 rows))
  else if k = "16-60" then int0 (.num (sum16_60 rows))
  else if k = "61-90" then int0 (.num (sum61_90 rows))
  else if k = "91-120" then int0 (.num (sum91_120 rows))
  else if k = "+120" then int0 (.num (sumMas120 rows))
  else if k = "Sin Vto" then int0 (.num (sumSinVto rows))
  else 0

/-! ### Top-20 provider exposure (`src/app.py` lines 363-378)

`resumen.groupby("Proveedor_Nombre", as_index=False)["Total"].sum()` groups the
summary rows by provider name (group keys sorted ascending, pandas default),
then `.sort_values("Total", ascending=False).head(20)` sorts by the summed
total descending and keeps the first 20 entries. -/

/-- Exact sum of the `Total` column over the rows of one provider-name group. -/
def sumTotalFor (rows : List SumRow) (name : String) : ℚ :=
  ((rows.filter (fun r => r.proveedor_Nombre = name)).map (·.total)).sum

/-- The distinct provider names of the rows, sorted ascending (pandas
`groupby` emits group keys in sorted order). -/
def sortedNames (rows : List SumRow) : List String :=
  List.insertionSort (fun a b : String => a ≤ b) (rows.map (·.proveedor_Nombre)).dedup

/-- `groupby("Proveedor_Nombre")["Total"].sum()`: one `(name, total)` pair per
distinct provider name. -/
def groupbySum (rows : List SumRow) : List (String × ℚ) :=
  (sortedNames rows).map (fun n => (n, sumTotalFor rows n))

/-- Descending order on the summed totals used by
`.sort_values("Total", ascending=False)`. -/
def topRel (a b : String × ℚ) : Prop := b.2 ≤ a.2

instance : DecidableRel topRel := fun a b => inferInstanceAs (Decidable (b.2 ≤ a.2))

instance : IsTotal (String × ℚ) topRel :=
  ⟨fun a b => le_total b.2 a.2⟩

instance : IsTrans (String × ℚ) topRel :=
  ⟨fun _ _ _ h1 h2 => le_trans h2 h1⟩

/-- `top` (`src/app.py` lines 365-370): group totals by provider name, sort
descending by total, keep the first 20. -/
def top (rows : List SumRow) : List (String × ℚ) :=
  (List.insertionSort topRel (groupbySum rows)).take 20

/-! ### Detail ordering (`src/app.py` lines 180 and 387)

`det.sort_values(by=["VtoSAP", "ImpMonLoc"], ascending=[True, False])`: due
date ascending and, within equal due dates, amount descending. -/

/-- The lexicographic order used for the detail table: due date ascending,
ties broken by amount descending. -/
def detRel (a b : DetRow) : Prop :=
  a.vtoSAP < b.vtoSAP ∨ (a.vtoSAP = b.vtoSAP ∧ b.impMonLoc ≤ a.impMonLoc)

instance : DecidableRel detRel := fun a b =>
  inferInstanceAs (Decidable (a.vtoSAP < b.vtoSAP ∨ (a.vtoSAP = b.vtoSAP ∧ b.impMonLoc ≤ a.impMonLoc)))

instance : IsTotal DetRow detRel :=
  ⟨fun a b => by
    rcases lt_trichotomy a.vtoSAP b.vtoSAP with h | h | h
    · exact Or.inl (Or.inl h)
    · rcases le_total b.impMonLoc a.impMonLoc with h' | h'
      · exact Or.inl (Or.inr ⟨h, h'⟩)
      · exact Or.inr (Or.inr ⟨h.symm, h'⟩)
    · exact Or.inr (Or.inl h)⟩

instance : IsTrans DetRow detRel :=
  ⟨fun a b c hab hbc => by
    rcases hab with h1 | ⟨h1, h1'⟩ <;> rcases hbc with h2 | ⟨h2, h2'⟩
    · exact Or.inl (h1.trans h2)
    · exact Or.inl (by rw [← h2]; exact h1)
    · exact Or.inl (by rw [h1]; exact h2)
    · exact Or.inr ⟨h1.trans h2, h2'.trans h1'⟩⟩

/-- `det` (`src/app.py` line 387): the detail rows sorted for display/export. -/
def det_sorted (detalle : List DetRow) : List DetRow :=
  List.insertionSort detRel detalle

/-! ### Connection pool and query execution (`src/app.py` lines 118-142) -/

/-- The database connection settings read from secrets/env
(`src/app.py` lines 37-41). -/
structure DbConfig where
  host : String
  port : ℤ
  user : String
  password : String
  name : String

/-- `pool` (`src/app.py` lines 118-131): a pool is created only when both
`DB_HOST` and `DB_NAME` are non-empty (Python truthiness of
`if DB_HOST and DB_NAME`); otherwise `pool` stays `None`. -/
def mkPool (cfg : DbConfig) : Option DbConfig :=
  if cfg.host ≠ "" ∧ cfg.name ≠ "" then some cfg else none

/-- The external database: given a query text and parameters it either returns
rows or raises an error.  It is an opaque collaborator of `run_query`. -/
def Database := String → List String → Except String (List (List String))

/-- `run_query` (`src/app.py` lines 133-142): with no pool it returns an empty
DataFrame; with a pool it executes the query on the database, which may
raise. -/
def run_query (db : Database) (pool : Option DbConfig) (sql : String)
    (params : List String) : Except String (List (List String)) :=
  match pool with
  | none => .ok []
  | some _ => db sql params

/-! ### Bucket/status filter (spec §4.2) -/

/-- The seven bucket labels of the summary view, in display order. -/
def bucketNames : List String :=
  ["A Vencer", "0-15", "16-60", "61-90", "91-120", "+120", "Sin Vto"]

/-- The five overdue bucket labels. -/
def overdueBuckets : List String := ["0-15", "16-60", "61-90", "91-120", "+120"]

/-- Modelled from the spec: the Bucket/Status Filter of spec §4.2 is not part
of `src/app.py` (this iteration renders the detail table unfiltered), so it is
modelled from the spec's words: the selection token is `"(all)"`, one of the
seven bucket names, or one of the three status groups; `"(all)"` or an unset
selection yields the full set unchanged, a bucket name keeps the rows whose
bucket field equals that name, and a status group keeps the rows whose bucket
belongs to the group. -/
def filter_detalle (sel : Option String) (rows : List DetRow) : List DetRow :=
  match sel with
  | none => rows
  | some s =>
      if s = "(all)" then rows
      else if s ∈ bucketNames then rows.filter (fun r => r.bucket = s)
      else if s = "overdue" then rows.filter (fun r => r.bucket ∈ overdueBuckets)
      else if s = "not yet due" then rows.filter (fun r => r.bucket = "A Vencer")
      else if s = "no due date" then rows.filter (fun r => r.bucket = "Sin Vto")
      else rows

/-! ### CSV export and re-parsing (`src/app.py` lines 400-408)

`det.to_csv(index=False)` writes a header line and one line per row, fields
separated by commas, each line terminated by a newline; a field containing a
comma, quote, CR or LF is wrapped in double quotes with inner quotes doubled
(Python `csv` minimal quoting).  The parser below is the standard CSV reading
state machine used when such a file is re-parsed. -/

/-- Characters that force a CSV field to be quoted on writing. -/
def specialChar (c : Char) : Bool := c = ',' || c = '"' || c = '\n' || c = '\r'

/-- Whether the CSV writer must quote this field. -/
def needsQuoting (f : List Char) : Bool := f.any specialChar

/-- Body of a quoted CSV field: every double quote is doubled. -/
def escBody : List Char → List Char
  | [] => []
  | c :: cs => if c = '"' then '"' :: '"' :: escBody cs else c :: escBody cs

/-- One encoded CSV field (minimal quoting). -/
def encodeField (f : List Char) : List Char :=
  if needsQuoting f then '"' :: (escBody f ++ ['"']) else f

/-- One encoded CSV record: fields joined by commas. -/
def encodeRecord : List (List Char) → List Char
  | [] => []
  | [f] => encodeField f
  | f :: fs => encodeField f ++ ',' :: encodeRecord fs

/-- A full CSV file: each record followed by a newline. -/
def encodeCsv : List (List (List Char)) → List Char
  | [] => []
  | r :: rs => encodeRecord r ++ '\n' :: encodeCsv rs

/-- Reading mode of the CSV parsing state machine. -/
inductive Mode where
  | fieldStart
  | unquoted
  | quoted
  | postQuote
deriving DecidableEq

/-- State of the CSV parsing state machine: completed records, completed
fields of the current record, characters of the current field, and the
reading mode. -/
structure PState where
  rows : List (List (List Char))
  row : List (List Char)
  field : List Char
  mode : Mode
deriving DecidableEq

/-- Close the current field. -/
def endField (st : PState) : PState := ⟨st.rows, st.row ++ [st.field], [], .fieldStart⟩

/-- Close the current record. -/
def endRecord (st : PState) : PState :=
  ⟨st.rows ++ [st.row ++ [st.field]], [], [], .fieldStart⟩

/-- Append a character to the current field and switch to the given mode. -/
def pushChar (st : PState) (c : Char) (m : Mode) : PState :=
  ⟨st.rows, st.row, st.field ++ [c], m⟩

/-- One step of the CSV parsing state machine. -/
def csvStep (st : PState) (c : Char) : PState :=
  match st.mode with
  | .fieldStart =>
      if c = '"' then ⟨st.rows, st.row, st.field, .quoted⟩
      else if c = ',' then endField st
      else if c = '\n' then endRecord st
      else pushChar st c .unquoted
  | .unquoted =>
      if c = ',' then endField st
      else if c = '\n' then endRecord st
      else pushChar st c .unquoted
  | .quoted =>
      if c = '"' then ⟨st.rows, st.row, st.field, .postQuote⟩
      else pushChar st c .quoted
  | .postQuote =>
      if c = '"' then pushChar st c .quoted
      else if c = ',' then endField st
      else if c = '\n' then endRecord st
      else pushChar st c .unquoted

/-- Initial parser state. -/
def initState : PState := ⟨[], [], [], .fieldStart⟩

/-- Flush the trailing record, if any, at end of input. -/
def csvFinish (st : PState) : List (List (List Char)) :=
  if st.mode = .fieldStart ∧ st.field = [] ∧ st.row = [] then st.rows
  else st.rows ++ [st.row ++ [st.field]]

/-- Parse a CSV character stream into its records. -/
def csvParse (cs : List Char) : List (List (List Char)) :=
  csvFinish (cs.foldl csvStep initState)

/-- The parsing mode reached at the end of one encoded field. -/
def fieldEndMode (f : List Char) : Mode :=
  if needsQuoting f then .postQuote else if f = [] then .fieldStart else .unquoted

/-- Header line written by `det.to_csv(index=False)` (`src/app.py` line 402). -/
def csvHeader : List (List Char) :=
  ["Sociedad".data, "Proveedor".data, "Proveedor_Nombre".data, "Nro_Documento".data,
   "Fecha_Factura".data, "VtoSAP".data, "ImpMonLoc".data, "MonDoc".data,
   "overdue_days".data, "bucket".data]

/-- The ten stringified fields of one exported detail row. -/
def detFields (r : DetRow) : List (List Char) :=
  [r.sociedad.data, r.proveedor.data, r.proveedor_Nombre.data, r.nro_Documento.data,
   (toString r.fecha_Factura).data, (toString r.vtoSAP).data, (toString r.impMonLoc).data,
   r.monDoc.data, (toString r.overdue_days).data, r.bucket.data]

/-- `csv2` (`src/app.py` line 402): the full exported detail CSV. -/
def detCsv (dets : List DetRow) : List Char :=
  encodeCsv (csvHeader :: dets.map detFields)

/-! ### Concrete example rows used in counterexamples and witnesses -/

/-- A consistent summary row whose only overdue amount is the fraction 1/2. -/
def ceHalf : SumRow := ⟨"S", "P", "N", 0, 1/2, 0, 0, 0, 0, 0, 1/2, 0⟩

/-- A consistent summary row with integer amounts in every bucket. -/
def cwRow : SumRow := ⟨"S", "P", "N", 1, 2, 3, 4, 5, 6, 7, 28, 0⟩

/-- A summary row whose 0-15 bucket holds the fraction 3/2. -/
def frPos : SumRow := ⟨"S", "P", "N", 0, 3/2, 0, 0, 0, 0, 0, 3/2, 0⟩

/-- A summary row whose 0-15 bucket holds the fraction -3/2. -/
def frNeg : SumRow := ⟨"S", "P", "N", 0, -3/2, 0, 0, 0, 0, 0, -3/2, 0⟩

/-- Provider P1 with total 100. -/
def tr1 : SumRow := ⟨"S", "1", "P1", 0, 0, 0, 0, 0, 0, 0, 100, 0⟩

/-- Provider P2 with total -50. -/
def tr2 : SumRow := ⟨"S", "2", "P2", 0, 0, 0, 0, 0, 0, 0, -50, 0⟩

/-- Provider P3 with total 30. -/
def tr3 : SumRow := ⟨"S", "3", "P3", 0, 0, 0, 0, 0, 0, 0, 30, 0⟩

/-- Provider P4 with total 0. -/
def tr4 : SumRow := ⟨"S", "4", "P4", 0, 0, 0, 0, 0, 0, 0, 0, 0⟩

/-- Four providers with totals 100, -50, 30 and 0. -/
def topRows : List SumRow := [tr1, tr2, tr3, tr4]

/-- A detail row in the 0-15 bucket. -/
def detA : DetRow := ⟨"S", "P", "N", "D1", 0, 10, 5, "ARS", 3, "0-15"⟩

/-- A detail row in the +120 bucket. -/
def detB : DetRow := ⟨"S", "P", "N", "D2", 0, 20, 7, "ARS", 130, "+120"⟩

/-! ### CSV round-trip lemmas -/

/-- Reading back the escaped body of a quoted field accumulates exactly the
original field characters and stays in quoted mode. -/
theorem foldl_escBody (f : List Char) :
    ∀ (rows : List (List (List Char))) (row : List (List Char)) (acc : List Char),
      (escBody f).foldl csvStep ⟨rows, row, acc, .quoted⟩ = ⟨rows, row, acc ++ f, .quoted⟩ := by
  induction f with
  | nil => intro rows row acc; simp [escBody]
  | cons c cs ih =>
    intro rows row acc
    by_cases hc : c = '"'
    · subst hc
      rw [show escBody ('"' :: cs) = '"' :: '"' :: escBody cs from by simp [escBody]]
      rw [List.foldl_cons, List.foldl_cons]
      rw [show csvStep ⟨rows, row, acc, Mode.quoted⟩ '"' = ⟨rows, row, acc, Mode.postQuote⟩ from rfl]
      rw [show csvStep ⟨rows, row, acc, Mode.postQuote⟩ '"'
            = ⟨rows, row, acc ++ ['"'], Mode.quoted⟩ from rfl]
      rw [ih]
      simp
    · rw [show escBody (c :: cs) = c :: escBody cs from by simp [escBody, hc]]
      rw [List.foldl_cons]
      rw [show csvStep ⟨rows, row, acc, Mode.quoted⟩ c = ⟨rows, row, acc ++ [c], Mode.quoted⟩ from by
        simp [csvStep, hc, pushChar]]
      rw [ih]
      simp

/-- Reading an unquoted run of non-special characters accumulates them and
stays in unquoted mode. -/
theorem foldl_unquoted (f : List Char) :
    ∀ (rows : List (List (List Char))) (row : List (List Char)) (acc : List Char),
      (∀ c ∈ f, specialChar c = false) →
      f.foldl csvStep ⟨rows, row, acc, .unquoted⟩ = ⟨rows, row, acc ++ f, .unquoted⟩ := by
  induction f with
  | nil => intro rows row acc _; simp
  | cons c cs ih =>
    intro rows row acc h
    have hc := h c (List.mem_cons_self c cs)
    simp only [specialChar, Bool.or_eq_false_iff, decide_eq_false_iff_not] at hc
    obtain ⟨⟨⟨hcomma, hquote⟩, hnl⟩, _⟩ := hc
    simp only [List.foldl_cons]
    rw [show csvStep ⟨rows, row, acc, Mode.unquoted⟩ c = ⟨rows, row, acc ++ [c], Mode.unquoted⟩ from by
      simp [csvStep, hcomma, hnl, pushChar]]
    rw [ih _ _ _ fun d hd => h d (List.mem_cons_of_mem c hd)]
    simp

/-- Reading one encoded field from the start of a field accumulates exactly
that field. -/
theorem foldl_encodeField (f : List Char) (rows : List (List (List Char)))
    (row : List (List Char)) :
    (encodeField f).foldl csvStep ⟨rows, row, [], .fieldStart⟩
      = ⟨rows, row, f, fieldEndMode f⟩ := by
  by_cases hq : needsQuoting f
  · rw [show encodeField f = '"' :: (escBody f ++ ['"']) from by simp [encodeField, hq]]
    rw [List.foldl_cons]
    rw [show csvStep ⟨rows, row, [], Mode.fieldStart⟩ '"' = ⟨rows, row, [], Mode.quoted⟩ from rfl]
    rw [List.foldl_append, foldl_escBody, List.foldl_cons, List.foldl_nil]
    rw [show csvStep ⟨rows, row, [] ++ f, Mode.quoted⟩ '"'
          = ⟨rows, row, [] ++ f, Mode.postQuote⟩ from rfl]
    simp [fieldEndMode, hq]
  · have hall : ∀ c ∈ f, specialChar c = false := by
      intro c hc
      by_contra hbad
      exact hq (List.any_eq_true.mpr ⟨c, hc, by simpa using hbad⟩)
    simp only [encodeField, if_neg hq, fieldEndMode]
    match f, hall with
    | [], _ => simp
    | c :: cs, hall =>
      have hc := hall c (List.mem_cons_self c cs)
      simp only [specialChar, Bool.or_eq_false_iff, decide_eq_false_iff_not] at hc
      obtain ⟨⟨⟨hcomma, hquote⟩, hnl⟩, _⟩ := hc
      simp only [List.foldl_cons]
      rw [show csvStep ⟨rows, row, [], Mode.fieldStart⟩ c = ⟨rows, row, [c], Mode.unquoted⟩ from by
        simp [csvStep, hquote, hcomma, hnl, pushChar]]
      rw [foldl_unquoted cs _ _ _ fun d hd => hall d (List.mem_cons_of_mem c hd)]
      simp

/-- A comma closes the current field from any end-of-field mode. -/
theorem csvStep_comma (f : List Char) (rows : List (List (List Char)))
    (row : List (List Char)) :
    csvStep ⟨rows, row, f, fieldEndMode f⟩ ',' = ⟨rows, row ++ [f], [], .fieldStart⟩ := by
  unfold fieldEndMode
  split
  · rfl
  · split
    · next hf => subst hf; rfl
    · rfl

/-- A newline closes the current record from any end-of-field mode. -/
theorem csvStep_newline (f : List Char) (rows : List (List (List Char)))
    (row : List (List Char)) :
    csvStep ⟨rows, row, f, fieldEndMode f⟩ '\n'
      = ⟨rows ++ [row ++ [f]], [], [], .fieldStart⟩ := by
  unfold fieldEndMode
  split
  · rfl
  · split
    · next hf => subst hf; rfl
    · rfl

/-- Reading one encoded record followed by a newline appends exactly that
record and returns to the initial mode. -/
theorem foldl_encodeRecord (fs : List (List Char)) :
    ∀ (rows : List (List (List Char))) (row : List (List Char)) (rest : List Char),
      fs ≠ [] →
      (encodeRecord fs ++ '\n' :: rest).foldl csvStep ⟨rows, row, [], .fieldStart⟩
        = rest.foldl csvStep ⟨rows ++ [row ++ fs], [], [], .fieldStart⟩ := by
  induction fs with
  | nil => intro _ _ _ h; exact absurd rfl h
  | cons f fs ih =>
    intro rows row rest _
    match fs, ih with
    | [], _ =>
      simp only [encodeRecord, List.foldl_append, List.foldl_cons]
      rw [foldl_encodeField, csvStep_newline]
    | g :: gs, ih =>
      simp only [encodeRecord, List.append_assoc, List.cons_append, List.foldl_append,
        List.foldl_cons]
      rw [foldl_encodeField, csvStep_comma]
      have := ih rows (row ++ [f]) rest (by simp)
      simp only [List.foldl_append, List.foldl_cons] at this
      rw [this]
      simp

/-- Reading a whole encoded CSV stream appends exactly its records. -/
theorem foldl_encodeCsv (rss : List (List (List Char))) :
    ∀ (rows : List (List (List Char))),
      (∀ r ∈ rss, r ≠ []) →
      (encodeCsv rss).foldl csvStep ⟨rows, [], [], .fieldStart⟩
        = ⟨rows ++ rss, [], [], .fieldStart⟩ := by
  induction rss with
  | nil => intro rows _; simp [encodeCsv]
  | cons r rs ih =>
    intro rows h
    simp only [encodeCsv]
    rw [foldl_encodeRecord r rows [] (encodeCsv rs) (h r (List.mem_cons_self r rs))]
    rw [ih _ fun s hs => h s (List.mem_cons_of_mem r hs)]
    simp

/-- CSV round trip: parsing an encoded list of records (each with at least one
field) returns exactly those records. -/
theorem csvParse_encodeCsv (rss : List (List (List Char))) (h : ∀ r ∈ rss, r ≠ []) :
    csvParse (encodeCsv rss) = rss := by
  unfold csvParse initState
  rw [foldl_encodeCsv rss [] h]
  simp [csvFinish]

/-! ### Helper lemmas -/

theorem int0_num (q : ℚ) : int0 (.num q) = pyTrunc q := rfl

theorem pyTrunc_intCast (n : ℤ) : pyTrunc (n : ℚ) = n := by
  unfold pyTrunc
  split <;> simp

/-- C2: for every summary-row set, the overdue percentage equals
overdue-sum / total × 100 when the coerced total is nonzero, and equals 0 when
the coerced total is 0; `porc_overdue` is a total function, so the computation
never raises a division-by-zero error. -/
theorem porc_overdue_spec (rows : List SumRow) :
    (total_kpi rows ≠ 0 →
      porc_overdue rows = (overdue_total rows : ℚ) / (total_kpi rows : ℚ) * 100) ∧
    (total_kpi rows = 0 → porc_overdue rows = 0) := by
  unfold porc_overdue
  constructor
  · intro h
    rw [if_pos h]
  · intro h
    rw [if_neg (by simp [h])]

/-- C2 witness: a concrete one-row summary with coerced total 2 has overdue
percentage 50. -/
theorem porc_overdue_spec_witness :
    total_kpi [⟨"S", "P", "N", 0, 1, 0, 0, 0, 0, 0, 2, 0⟩] ≠ 0 ∧
    porc_overdue [⟨"S", "P", "N", 0, 1, 0, 0, 0, 0, 0, 2, 0⟩] = 50 := by
  have h : total_kpi [⟨"S", "P", "N", 0, 1, 0, 0, 0, 0, 0, 2, 0⟩] = 2 := by
    norm_num [total_kpi, sumTotal, int0_num, pyTrunc]
  refine ⟨by rw [h]; norm_num, ?_⟩
  rw [(porc_overdue_spec [⟨"S", "P", "N", 0, 1, 0, 0, 0, 0, 0, 2, 0⟩]).1 (by rw [h]; norm_num)]
  rw [h]
  norm_num [overdue_total, sum0_15, sum16_60, sum61_90, sum91_120, sumMas120, int0_num, pyTrunc]

/-- C4: the document count equals the number of detail rows when the detail
set is non-empty, and falls back to the number of summary rows when the detail
set is empty. -/
theorem doc_count_spec (detalle : List DetRow) (resumen : List SumRow) :
    (detalle ≠ [] → doc_count detalle resumen = detalle.length) ∧
    (detalle = [] → doc_count detalle resumen = resumen.length) := by
  unfold doc_count
  constructor
  · intro h
    rw [if_pos h]
  · intro h
    rw [if_neg (by simp [h])]

/-- C4 witness: with an empty detail set and a 5-row summary set the document
count falls back to 5. -/
theorem doc_count_spec_witness :
    ([] : List DetRow) = [] ∧
    doc_count [] (List.replicate 5 (⟨"S", "P", "N", 0, 0, 0, 0, 0, 0, 0, 0, 0⟩ : SumRow)) = 5 := by
  refine ⟨rfl, ?_⟩
  rw [(doc_count_spec [] (List.replicate 5 ⟨"S", "P", "N", 0, 0, 0, 0, 0, 0, 0, 0, 0⟩)).2 rfl]
  simp

/-- C5: numeric coercion via `int0` returns the integer value (truncation) of
a numeric input and returns 0 whenever the conversion fails, never propagating
an exception (`int0` is a total function). -/
theorem int0_spec (v : Value) :
    (∀ n : ℤ, pyInt v = some n → int0 v = n) ∧ (pyInt v = none → int0 v = 0) := by
  unfold int0
  constructor
  · intro n h
    rw [h]
  · intro h
    rw [h]

/-- C5 witness: the non-numeric string "abc" fails conversion and coerces
to 0. -/
theorem int0_spec_witness :
    pyInt (.str "abc") = none ∧ int0 (.str "abc") = 0 :=
  ⟨by decide, (int0_spec (.str "abc")).2 (by decide)⟩

/-- C7: when the database configuration is missing (empty host or empty
database name), no pool is created and every query returns an empty result set
rather than raising a connection error, for every query text and parameter
tuple. -/
theorem run_query_no_config (cfg : DbConfig) (db : Database) (sql : String)
    (params : List String) (h : cfg.host = "" ∨ cfg.name = "") :
    run_query db (mkPool cfg) sql params = .ok [] := by
  unfold run_query mkPool
  rcases h with h | h <;> rw [if_neg (by simp [h])]

/-- C7 witness: with an empty host and a database that always raises, a query
still returns the empty result set. -/
theorem run_query_no_config_witness :
    (⟨"", 3306, "u", "p", "db"⟩ : DbConfig).host = "" ∧
    run_query (fun _ _ => .error "connection error") (mkPool ⟨"", 3306, "u", "p", "db"⟩)
      "SELECT 1" [] = .ok [] :=
  ⟨rfl, run_query_no_config ⟨"", 3306, "u", "p", "db"⟩ (fun _ _ => .error "connection error")
    "SELECT 1" [] (Or.inl rfl)⟩

/-- C8: for every detail set, the presented/exported detail table is a
permutation of the rows ordered by due date (`VtoSAP`) ascending and, within
equal due dates, by amount (`ImpMonLoc`) descending. -/
theorem det_sorted_spec (detalle : List DetRow) :
    (det_sorted detalle).Perm detalle ∧
    (det_sorted detalle).Pairwise
      (fun a b => a.vtoSAP < b.vtoSAP ∨ (a.vtoSAP = b.vtoSAP ∧ b.impMonLoc ≤ a.impMonLoc)) := by
  constructor
  · exact List.perm_insertionSort detRel detalle
  · exact List.sorted_insertionSort detRel detalle

/-- C1 counterexample: a non-empty summary-row set with a fractional overdue
amount, internally consistent (`Total` equals the sum of the seven buckets),
whose computed overdue total (0) differs from the exact sum of the five
overdue bucket columns (1/2). -/
theorem overdue_total_cex :
    ([ceHalf] : List SumRow) ≠ [] ∧
    sumTotal [ceHalf]
      = sumAVencer [ceHalf] + (sum0_15 [ceHalf] + sum16_60 [ceHalf] + sum61_90 [ceHalf]
          + sum91_120 [ceHalf] + sumMas120 [ceHalf]) + sumSinVto [ceHalf] ∧
    (overdue_total [ceHalf] : ℚ)
      ≠ sum0_15 [ceHalf] + sum16_60 [ceHalf] + sum61_90 [ceHalf]
          + sum91_120 [ceHalf] + sumMas120 [ceHalf] := by
  refine ⟨by simp, ?_, ?_⟩
  · norm_num [ceHalf, sumTotal, sumAVencer, sum0_15, sum16_60, sum61_90, sum91_120,
      sumMas120, sumSinVto]
  · have h : overdue_total [ceHalf] = 0 := by
      rw [overdue_total, int0_num]
      norm_num [ceHalf, sum0_15, sum16_60, sum61_90, sum91_120, sumMas120, pyTrunc]
    rw [h]
    norm_num [ceHalf, sum0_15, sum16_60, sum61_90, sum91_120, sumMas120]

/-- C1 (amended): for every non-empty summary-row set, the overdue total
equals the truncation toward zero of the exact sum of the five overdue bucket
columns; and whenever that five-bucket sum, the `A Vencer` sum and the
`Sin Vto` sum are integers and the `Total` column equals the sum of the seven
buckets, it also equals total minus (not-yet-due plus no-due-date). -/
theorem overdue_total_spec (rows : List SumRow) (hne : rows ≠ []) :
    overdue_total rows
      = pyTrunc (sum0_15 rows + sum16_60 rows + sum61_90 rows + sum91_120 rows + sumMas120 rows) ∧
    (∀ a b c : ℤ,
      sum0_15 rows + sum16_60 rows + sum61_90 rows + sum91_120 rows + sumMas120 rows = (a : ℚ) →
      sumAVencer rows = (b : ℚ) →
      sumSinVto rows = (c : ℚ) →
      sumTotal rows
        = sumAVencer rows + (sum0_15 rows + sum16_60 rows + sum61_90 rows + sum91_120 rows
            + sumMas120 rows) + sumSinVto rows →
      overdue_total rows = total_kpi rows - (avencer_total rows + sinvto_total rows)) := by
  constructor
  · exact int0_num _
  · intro a b c ha hb hc ht
    have h5 : overdue_total rows = a := by
      rw [overdue_total, int0_num, ha, pyTrunc_intCast]
    have hT : total_kpi rows = b + a + c := by
      rw [total_kpi, int0_num, ht, ha, hb, hc]
      rw [show ((b : ℚ) + a + c) = ((b + a + c : ℤ) : ℚ) by push_cast; ring]
      exact pyTrunc_intCast _
    have hA : avencer_total rows = b := by
      rw [avencer_total, int0_num, hb, pyTrunc_intCast]
    have hS : sinvto_total rows = c := by
      rw [sinvto_total, int0_num, hc, pyTrunc_intCast]
    rw [h5, hT, hA, hS]
    ring

/-- C1 witness: on a concrete consistent integer-valued row the overdue total
20 equals total − (not-yet-due + no-due-date) = 28 − (1 + 7). -/
theorem overdue_total_spec_witness :
    ([cwRow] : List SumRow) ≠ [] ∧
    overdue_total [cwRow] = total_kpi [cwRow] - (avencer_total [cwRow] + sinvto_total [cwRow]) := by
  refine ⟨by simp, ?_⟩
  exact (overdue_total_spec [cwRow] (by simp)).2 20 1 7
    (by norm_num [cwRow, sum0_15, sum16_60, sum61_90, sum91_120, sumMas120])
    (by norm_num [cwRow, sumAVencer])
    (by norm_num [cwRow, sumSinVto])
    (by norm_num [cwRow, sumTotal, sumAVencer, sum0_15, sum16_60, sum61_90, sum91_120,
      sumMas120, sumSinVto])

/-- The concrete value of the top ranking on `topRows`: sorted descending by
the signed total, so the provider with total -50 ranks last, not second. -/
theorem top_topRows_eval :
    top topRows = [("P1", (100 : ℚ)), ("P3", 30), ("P4", 0), ("P2", -50)] := by
  have h1 : sortedNames topRows = ["P1", "P2", "P3", "P4"] := by
    rw [sortedNames]
    rw [show topRows.map (·.proveedor_Nombre) = ["P1", "P2", "P3", "P4"] from rfl]
    rw [show (["P1", "P2", "P3", "P4"] : List String).dedup = ["P1", "P2", "P3", "P4"] from by
      decide]
    simp [List.insertionSort, List.orderedInsert]
    all_goals decide
  have s1 : sumTotalFor topRows "P1" = 100 := by
    rw [sumTotalFor, show topRows.filter (fun r => r.proveedor_Nombre = "P1") = [tr1] from rfl]
    norm_num [tr1]
  have s2 : sumTotalFor topRows "P2" = -50 := by
    rw [sumTotalFor, show topRows.filter (fun r => r.proveedor_Nombre = "P2") = [tr2] from rfl]
    norm_num [tr2]
  have s3 : sumTotalFor topRows "P3" = 30 := by
    rw [sumTotalFor, show topRows.filter (fun r => r.proveedor_Nombre = "P3") = [tr3] from rfl]
    norm_num [tr3]
  have s4 : sumTotalFor topRows "P4" = 0 := by
    rw [sumTotalFor, show topRows.filter (fun r => r.proveedor_Nombre = "P4") = [tr4] from rfl]
    norm_num [tr4]
  have h2 : groupbySum topRows
      = [("P1", (100 : ℚ)), ("P2", -50), ("P3", 30), ("P4", 0)] := by
    rw [groupbySum, h1]
    simp only [List.map_cons, List.map_nil]
    rw [s1, s2, s3, s4]
  have h3 : List.insertionSort topRel [("P1", (100 : ℚ)), ("P2", -50), ("P3", 30), ("P4", 0)]
      = [("P1", (100 : ℚ)), ("P3", 30), ("P4", 0), ("P2", -50)] := by
    norm_num [List.insertionSort, List.orderedInsert, topRel]
  rw [top, h2, h3]
  rfl

/-- C3 counterexample: for providers with totals [100, -50, 30, 0] the code
ranks by the signed total, giving [100, 30, 0, -50] — not the claimed
absolute-value order [100, -50, 30, 0]; the presented value for the -50
provider is the signed -50, not its absolute value 50. -/
theorem top_cex :
    (top topRows).map Prod.snd = [100, 30, 0, -50] ∧
    (top topRows).map Prod.snd ≠ [100, -50, 30, 0] ∧
    ((-50 : ℚ) ∈ (top topRows).map Prod.snd ∧ (50 : ℚ) ∉ (top topRows).map Prod.snd) := by
  rw [top_topRows_eval]
  refine ⟨rfl, by norm_num, by norm_num, by norm_num⟩

/-- C3 (amended): the top-N exposure ranking groups rows by provider name,
sums the Total field per provider, sorts descending by the signed total, and
truncates to 20 entries; no absolute value is taken for presentation, so for
providers with totals [100, -50, 30, 0] the ranking order is
[100, 30, 0, -50]. -/
theorem top_spec (rows : List SumRow) :
    (top rows).Pairwise (fun a b => b.2 ≤ a.2) ∧
    (top rows).length ≤ 20 ∧
    (∀ p ∈ top rows, p.2 = sumTotalFor rows p.1) ∧
    (top topRows).map Prod.snd = [100, 30, 0, -50] := by
  refine ⟨?_, ?_, ?_, by rw [top_topRows_eval]; rfl⟩
  · exact List.Pairwise.sublist (List.take_sublist 20 _)
      (List.sorted_insertionSort topRel (groupbySum rows))
  · exact List.length_take_le 20 _
  · intro p hp
    have hp' : p ∈ groupbySum rows :=
      (List.perm_insertionSort topRel (groupbySum rows)).subset
        ((List.take_sublist 20 _).subset hp)
    obtain ⟨n, _, rfl⟩ := List.mem_map.mp hp'
    rfl

/-- C3 witness: the head entry (P1, 100) of the concrete ranking indeed
carries the summed total of provider P1. -/
theorem top_spec_witness :
    ("P1", (100 : ℚ)) ∈ top topRows ∧ (100 : ℚ) = sumTotalFor topRows "P1" := by
  have hm : ("P1", (100 : ℚ)) ∈ top topRows := by rw [top_topRows_eval]; simp
  exact ⟨hm, (top_spec topRows).2.2.1 _ hm⟩

/-- C6: filtering detail rows by "(all)" or by an unset selection returns the
original set unchanged (identity law), and filtering by one of the seven
bucket names returns exactly the rows whose bucket field equals that name. -/
theorem filter_detalle_spec (rows : List DetRow) :
    filter_detalle none rows = rows ∧
    filter_detalle (some "(all)") rows = rows ∧
    (∀ b ∈ bucketNames, ∀ r : DetRow,
      r ∈ filter_detalle (some b) rows ↔ r ∈ rows ∧ r.bucket = b) := by
  refine ⟨rfl, by simp [filter_detalle], ?_⟩
  intro b hb r
  fin_cases hb <;>
    simp [filter_detalle, bucketNames, List.mem_filter]

/-- C6 witness: filtering two concrete rows by the bucket name "0-15" keeps
exactly the row in that bucket. -/
theorem filter_detalle_spec_witness :
    ("0-15" ∈ bucketNames) ∧
    filter_detalle (some "(all)") [detA, detB] = [detA, detB] ∧
    (detA ∈ filter_detalle (some "0-15") [detA, detB]
      ↔ detA ∈ [detA, detB] ∧ detA.bucket = "0-15") :=
  ⟨by decide, (filter_detalle_spec [detA, detB]).2.1,
    (filter_detalle_spec [detA, detB]).2.2 "0-15" (by decide) detA⟩

/-- C9: exporting a non-empty detail set to CSV and re-parsing the CSV yields
the same number of data rows and the same document numbers (hence the same
set of `Nro_Documento` values) as the in-memory detail set. -/
theorem detCsv_roundtrip (dets : List DetRow) (hne : dets ≠ []) :
    ((csvParse (detCsv dets)).drop 1).length = dets.length ∧
    ((csvParse (detCsv dets)).drop 1).map (fun r => r.getD 3 [])
      = dets.map (fun d => d.nro_Documento.data) ∧
    (((csvParse (detCsv dets)).drop 1).map (fun r => r.getD 3 [])).toFinset
      = (dets.map (fun d => d.nro_Documento.data)).toFinset := by
  have hr : ∀ r ∈ csvHeader :: dets.map detFields, r ≠ [] := by
    intro r hrr
    rcases List.mem_cons.mp hrr with rfl | hmem
    · simp [csvHeader]
    · obtain ⟨d, _, rfl⟩ := List.mem_map.mp hmem
      simp [detFields]
  have h : csvParse (detCsv dets) = csvHeader :: dets.map detFields :=
    csvParse_encodeCsv _ hr
  rw [h]
  have hmap : (dets.map detFields).map (fun r => r.getD 3 [])
      = dets.map (fun d => d.nro_Documento.data) := by
    rw [List.map_map]
    rfl
  exact ⟨by simp, by simpa using hmap, by rw [List.drop_one, List.tail_cons, hmap]⟩

/-- C9 witness: a one-row detail set round-trips to one data row with the
same document number. -/
theorem detCsv_roundtrip_witness :
    ([detA] : List DetRow) ≠ [] ∧
    ((csvParse (detCsv [detA])).drop 1).length = 1 ∧
    ((csvParse (detCsv [detA])).drop 1).map (fun r => r.getD 3 [])
      = [detA.nro_Documento.data] := by
  have hne : ([detA] : List DetRow) ≠ [] := by simp
  have h := detCsv_roundtrip [detA] hne
  exact ⟨hne, h.1, h.2.1⟩

/-- C10: every aggregated KPI value is obtained by coercing the exact column
sum to an integer by truncation toward zero (floor for nonnegative, ceiling
for negative, so fractional parts are discarded, not rounded), and the
overdue-percentage ratio is formed from the already-truncated integers; on a
row with 0-15 amount 3/2 the bucket KPI is 1 (not the rounded 2), and on a
row with 0-15 amount -3/2 it is -1 (not the floor -2). -/
theorem kpi_truncation (rows : List SumRow) :
    (∀ q : ℚ, (0 ≤ q → int0 (.num q) = ⌊q⌋) ∧ (q < 0 → int0 (.num q) = ⌈q⌉)) ∧
    (overdue_total rows
        = pyTrunc (sum0_15 rows + sum16_60 rows + sum61_90 rows + sum91_120 rows
            + sumMas120 rows) ∧
      avencer_total rows = pyTrunc (sumAVencer rows) ∧
      sinvto_total rows = pyTrunc (sumSinVto rows) ∧
      total_kpi rows = pyTrunc (sumTotal rows) ∧
      total_mm rows = pyTrunc (sumTotalMM rows) ∧
      bucket_kpi rows "A Vencer" = pyTrunc (sumAVencer rows) ∧
      bucket_kpi rows "0-15" = pyTrunc (sum0_15 rows) ∧
      bucket_kpi rows "16-60" = pyTrunc (sum16_60 rows) ∧
      bucket_kpi rows "61-90" = pyTrunc (sum61_90 rows) ∧
      bucket_kpi rows "91-120" = pyTrunc (sum91_120 rows) ∧
      bucket_kpi rows "+120" = pyTrunc (sumMas120 rows) ∧
      bucket_kpi rows "Sin Vto" = pyTrunc (sumSinVto rows)) ∧
    porc_overdue rows
      = (if total_kpi rows ≠ 0 then (overdue_total rows : ℚ) / (total_kpi rows : ℚ) * 100
          else 0) ∧
    (bucket_kpi [frPos] "0-15" = 1 ∧ bucket_kpi [frNeg] "0-15" = -1) := by
  refine ⟨?_, ?_, rfl, ?_, ?_⟩
  · intro q
    constructor
    · intro h
      rw [int0_num, pyTrunc, if_neg (not_lt.mpr h)]
    · intro h
      rw [int0_num, pyTrunc, if_pos h]
  · refine ⟨rfl, rfl, rfl, rfl, rfl, ?_⟩
    simp [bucket_kpi, int0_num]
  · rw [show bucket_kpi [frPos] "0-15" = int0 (.num (sum0_15 [frPos])) from by
      simp [bucket_kpi]]
    rw [int0_num]
    norm_num [frPos, sum0_15, pyTrunc]
  · rw [show bucket_kpi [frNeg] "0-15" = int0 (.num (sum0_15 [frNeg])) from by
      simp [bucket_kpi]]
    rw [int0_num]
    have : sum0_15 [frNeg] = -3/2 := by norm_num [frNeg, sum0_15]
    rw [this, pyTrunc, if_pos (by norm_num)]
    rw [show ((-3 : ℚ)/2) = -(3/2) by norm_num, Int.ceil_neg]
    norm_num

/-- C10 witness: the coercion of the nonnegative fraction 3/2 is its floor 1. -/
theorem kpi_truncation_witness :
    (0 : ℚ) ≤ 3/2 ∧ int0 (.num (3/2)) = ⌊(3/2 : ℚ)⌋ :=
  ⟨by norm_num, ((kpi_truncation []).1 (3/2)).1 (by norm_num)⟩

end Corven
